import Mathlib

/-!
Shallow embedding of the reliability layer of the Whatsapp-Memories
repository: the publisher's retry/queue/dead-letter pipeline
(whatsapp-collector), the shutdown terminator (message-storage), the
message deduplicator, and the multi-provider embedding service
(message-storage), together with theorems settling the specification
claims about them.
-/

namespace WhatsappMemories

/-! ## Retry executors

Embeds `retryWithBackoff` from `whatsapp-collector/src/utils/retry.ts`
(the Publisher's executor) and
`EmbeddingService.retryWithBackoff` from
`message-storage/src/services/embeddings/EmbeddingService.ts`.
-/

/-- Outcome of running a retry loop: attempts are numbered from `i`;
`n` attempts remain.  The collector's loop runs `attempt = 0 .. maxRetries`
(so `maxRetries + 1` attempts); the embedding service's loop runs
`attempt = 1 .. maxAttempts`.  On the final failed attempt the loop
re-throws that last error. -/
def retryRun {α : Type} (f : ℕ → Except String α) : ℕ → ℕ → Except String α
  | _, 0 => .error "retry executor invoked with no attempts"
  | i, 1 => f i
  | i, n + 2 =>
    match f i with
    | .ok a => .ok a
    | .error _ => retryRun f (i + 1) (n + 1)

/-- Delay slept by the collector's `retryWithBackoff` after its
`(k+1)`-th failed attempt (0-based `k`): the local `delay` starts at
`initialDelay`, is slept, and only afterwards updated to
`min (delay * backoffMultiplier) maxDelay`. -/
def collectorRetryDelay (initialDelay mult maxDelay : ℚ) : ℕ → ℚ
  | 0 => initialDelay
  | k + 1 => min (collectorRetryDelay initialDelay mult maxDelay k * mult) maxDelay

/-- Delay slept by `EmbeddingService.retryWithBackoff` after its
`(k+1)`-th failed attempt (0-based `k`): the code computes
`initialDelay * Math.pow(2, attempt - 1)` with no maximum-delay cap. -/
def embeddingRetryDelay (initialDelay : ℚ) (k : ℕ) : ℚ :=
  initialDelay * 2 ^ k

/-! ## Publisher (3-tier delivery), `PublisherService.publish`

From `whatsapp-collector`: on retry exhaustion the item is pushed onto
`failedQueue` when `failedQueue.length < config.queue.maxSize`,
otherwise it is immediately written to the dead-letter sink with reason
`queue-full`. -/

/-- Item of the publisher's in-memory failed queue: `{channel, payload}`. -/
structure QueueItem where
  channel : String
  payload : String
deriving DecidableEq

/-- Reasons recorded in dead-letter records (`deadLetter.ts`). -/
inductive Reason where
  | queueFull
  | flushRequeueFull
  | shutdownUnflushed
deriving DecidableEq

/-- Observable state of the publisher: the bounded in-memory queue, the
dead-letter writes it performed (in order, with reasons), and the items
successfully published. -/
structure PubState where
  failedQueue : List QueueItem
  deadLetters : List (QueueItem × Reason)
  published : List QueueItem
deriving DecidableEq

def PubState.initial : PubState := ⟨[], [], []⟩

/-- One call to `PublisherService.publish`: tiers 1/2 run the retry
executor over the transport send (`send` gives each attempt's outcome,
`maxRetries + 1` attempts in total); tier 3 queues the item if capacity
remains and otherwise dead-letters it with reason `queue-full`. -/
def publishOnce (maxSize maxRetries : ℕ) (send : ℕ → Except String ℕ)
    (s : PubState) (item : QueueItem) : PubState :=
  match retryRun send 0 (maxRetries + 1) with
  | .ok _ => { s with published := s.published ++ [item] }
  | .error _ =>
    if s.failedQueue.length < maxSize then
      { s with failedQueue := s.failedQueue ++ [item] }
    else
      { s with deadLetters := s.deadLetters ++ [(item, Reason.queueFull)] }

/-- A sequence of `publish` calls, one per item, with no flush interleaved. -/
def publishAll (maxSize maxRetries : ℕ) (send : ℕ → Except String ℕ)
    (s : PubState) (items : List QueueItem) : PubState :=
  items.foldl (publishOnce maxSize maxRetries send) s

theorem retryRun_error {α : Type} (f : ℕ → Except String α)
    (hfail : ∀ i, ∃ e, f i = .error e) :
    ∀ n i, ∃ e, retryRun f i n = .error e := by
  intro n
  induction n with
  | zero => intro i; exact ⟨_, rfl⟩
  | succ n ih =>
    intro i
    cases n with
    | zero => simpa [retryRun] using hfail i
    | succ m =>
      obtain ⟨e, he⟩ := hfail i
      simpa [retryRun, he] using ih (i + 1)

theorem publishOnce_fail (maxSize maxRetries : ℕ) (send : ℕ → Except String ℕ)
    (hfail : ∀ i, ∃ e, send i = .error e) (s : PubState) (item : QueueItem) :
    publishOnce maxSize maxRetries send s item =
      (if s.failedQueue.length < maxSize then
        { s with failedQueue := s.failedQueue ++ [item] }
      else
        { s with deadLetters := s.deadLetters ++ [(item, Reason.queueFull)] }) := by
  obtain ⟨e, he⟩ := retryRun_error send hfail (maxRetries + 1) 0
  simp [publishOnce, he]

theorem publishAll_fail (maxSize maxRetries : ℕ) (send : ℕ → Except String ℕ)
    (hfail : ∀ i, ∃ e, send i = .error e) :
    ∀ (items : List QueueItem) (s : PubState), s.failedQueue.length ≤ maxSize →
      publishAll maxSize maxRetries send s items =
        ⟨s.failedQueue ++ items.take (maxSize - s.failedQueue.length),
         s.deadLetters ++
           (items.drop (maxSize - s.failedQueue.length)).map
             (fun it => (it, Reason.queueFull)),
         s.published⟩ := by
  intro items
  induction items with
  | nil => intro s _; simp [publishAll]
  | cons item rest ih =>
    intro s hle
    rcases lt_or_eq_of_le hle with hlt | heq
    · have hstep :
        publishAll maxSize maxRetries send s (item :: rest) =
          publishAll maxSize maxRetries send
            { s with failedQueue := s.failedQueue ++ [item] } rest := by
        simp [publishAll, publishOnce_fail maxSize maxRetries send hfail, hlt]
      rw [hstep, ih _ (by simp; omega)]
      have hms : maxSize - s.failedQueue.length = (maxSize - (s.failedQueue.length + 1)) + 1 := by
        omega
      simp [hms, List.take_succ_cons, List.drop_succ_cons]
    · have hstep :
        publishAll maxSize maxRetries send s (item :: rest) =
          publishAll maxSize maxRetries send
            { s with deadLetters := s.deadLetters ++ [(item, Reason.queueFull)] } rest := by
        simp [publishAll, publishOnce_fail maxSize maxRetries send hfail, heq]
      rw [hstep, ih _ (by simp; omega)]
      have hms : maxSize - s.failedQueue.length = 0 := by omega
      simp [hms]

/-- C1: publishing N items while the transport send always fails, with
queue capacity `C` and an initially empty queue and no flush
interleaved: the first `C` failed items are appended to the in-memory
queue (in order), and each item beyond the first `C` is not queued but
written to the dead-letter sink with reason `queue-full`; nothing is
published. -/
theorem publisher_overflow_queue_full (maxSize maxRetries : ℕ)
    (send : ℕ → Except String ℕ) (hfail : ∀ i, ∃ e, send i = .error e)
    (items : List QueueItem) :
    (publishAll maxSize maxRetries send PubState.initial items).failedQueue =
        items.take maxSize ∧
    (publishAll maxSize maxRetries send PubState.initial items).deadLetters =
        (items.drop maxSize).map (fun it => (it, Reason.queueFull)) ∧
    (publishAll maxSize maxRetries send PubState.initial items).published = [] := by
  have h := publishAll_fail maxSize maxRetries send hfail items PubState.initial
    (by simp [PubState.initial])
  simp only [PubState.initial, List.nil_append, Nat.sub_zero, List.length_nil] at h
  simp only [PubState.initial]
  rw [h]
  exact ⟨rfl, rfl, rfl⟩

/-- Witness for C1: capacity 2, four publishes against a transport that
always fails: the first two items are queued, the last two dead-lettered
with reason `queue-full`. -/
theorem publisher_overflow_queue_full_witness :
    (∀ i : ℕ, ∃ e, (fun _ : ℕ => (Except.error "redis down" : Except String ℕ)) i
        = .error e) ∧
    (publishAll 2 3 (fun _ => .error "redis down") PubState.initial
        [⟨"ch", "p1"⟩, ⟨"ch", "p2"⟩, ⟨"ch", "p3"⟩, ⟨"ch", "p4"⟩]).failedQueue =
      [⟨"ch", "p1"⟩, ⟨"ch", "p2"⟩] ∧
    (publishAll 2 3 (fun _ => .error "redis down") PubState.initial
        [⟨"ch", "p1"⟩, ⟨"ch", "p2"⟩, ⟨"ch", "p3"⟩, ⟨"ch", "p4"⟩]).deadLetters =
      [(⟨"ch", "p3"⟩, Reason.queueFull), (⟨"ch", "p4"⟩, Reason.queueFull)] := by
  have h := publisher_overflow_queue_full 2 3 (fun _ => .error "redis down")
    (fun _ => ⟨"redis down", rfl⟩)
    [⟨"ch", "p1"⟩, ⟨"ch", "p2"⟩, ⟨"ch", "p3"⟩, ⟨"ch", "p4"⟩]
  exact ⟨fun _ => ⟨"redis down", rfl⟩, by simpa using h.1, by simpa using h.2.1⟩

/-- C3 counterexample: the claimed formula
`delay = min(initialDelay * multiplier^(k-1), maxDelay)` fails on both
executors.  The collector's executor sleeps its very first delay
uncapped (`initialDelay = 20000` with `maxDelay = 10000` sleeps 20000,
not 10000), and the embedding service's executor applies no cap at all
(`initialDelay = 1000` at its fifth sleep gives 16000, where the capped
formula with the configured default `maxDelay = 10000` gives 10000). -/
theorem backoff_formula_counterexample :
    collectorRetryDelay 20000 2 10000 0 = 20000 ∧
    min ((20000 : ℚ) * 2 ^ (0 : ℕ)) 10000 = 10000 ∧
    collectorRetryDelay 20000 2 10000 0 ≠ min ((20000 : ℚ) * 2 ^ (0 : ℕ)) 10000 ∧
    embeddingRetryDelay 1000 4 = 16000 ∧
    min ((1000 : ℚ) * 2 ^ (4 : ℕ)) 10000 = 10000 ∧
    embeddingRetryDelay 1000 4 ≠ min ((1000 : ℚ) * 2 ^ (4 : ℕ)) 10000 := by
  refine ⟨rfl, by norm_num, by norm_num [collectorRetryDelay],
    by norm_num [embeddingRetryDelay], by norm_num,
    by norm_num [embeddingRetryDelay]⟩

/-- C3 amended: when `0 ≤ initialDelay ≤ maxDelay` and `multiplier ≥ 1`,
the collector's retry executor sleeps exactly
`min(initialDelay * multiplier^k, maxDelay)` before its `(k+2)`-th
attempt (0-based `k`); the embedding service's executor sleeps the
uncapped `initialDelay * 2^k`, which agrees with the capped formula only
while the uncapped value stays at or below `maxDelay`. -/
theorem backoff_shapes (initialDelay mult maxDelay : ℚ)
    (h0 : 0 ≤ initialDelay) (hle : initialDelay ≤ maxDelay) (hm : 1 ≤ mult) :
    (∀ k, collectorRetryDelay initialDelay mult maxDelay k =
        min (initialDelay * mult ^ k) maxDelay) ∧
    (∀ d : ℚ, ∀ k, embeddingRetryDelay d k = d * 2 ^ k) ∧
    (∀ k, initialDelay * 2 ^ k ≤ maxDelay →
        embeddingRetryDelay initialDelay k = min (initialDelay * 2 ^ k) maxDelay) := by
  have hmax0 : (0 : ℚ) ≤ maxDelay := le_trans h0 hle
  refine ⟨?_, fun d k => rfl, fun k hk => by
    rw [embeddingRetryDelay, min_eq_left hk]⟩
  intro k
  induction k with
  | zero => simp [collectorRetryDelay, min_eq_left hle]
  | succ k ih =>
    rw [collectorRetryDelay, ih]
    rcases le_or_lt (initialDelay * mult ^ k) maxDelay with hcase | hcase
    · rw [min_eq_left hcase, pow_succ, ← mul_assoc]
    · have hpow : (0 : ℚ) ≤ initialDelay * mult ^ k := by positivity
      rw [min_eq_right (le_of_lt hcase)]
      rw [min_eq_right (le_mul_of_one_le_right hmax0 hm)]
      have : maxDelay ≤ initialDelay * mult ^ (k + 1) := by
        rw [pow_succ, ← mul_assoc]
        calc maxDelay ≤ initialDelay * mult ^ k := le_of_lt hcase
          _ ≤ initialDelay * mult ^ k * mult := le_mul_of_one_le_right hpow hm
      rw [min_eq_right this]

/-- Witness for C3's amended theorem at the collector's default
configuration (`initialDelay = 1000`, `multiplier = 2`,
`maxDelay = 10000`): the fourth sleep is `min(1000 * 2^3, 10000) = 8000`
and the embedding executor's second sleep is `1000 * 2 = 2000`. -/
theorem backoff_shapes_witness :
    (0 : ℚ) ≤ 1000 ∧ (1000 : ℚ) ≤ 10000 ∧ (1 : ℚ) ≤ 2 ∧
    collectorRetryDelay 1000 2 10000 3 = min ((1000 : ℚ) * 2 ^ (3 : ℕ)) 10000 ∧
    embeddingRetryDelay 1000 1 = (1000 : ℚ) * 2 ^ (1 : ℕ) := by
  have h := backoff_shapes 1000 2 10000 (by norm_num) (by norm_num) (by norm_num)
  exact ⟨by norm_num, by norm_num, by norm_num, h.1 3, h.2.1 1000 1⟩

/-! ## Message deduplicator -/

/-- Modelled from the spec: the collector's `utils/deduplication.ts`
(class `MessageDeduplicator`) is not under `src/` — only its unit test
and its call sites are.  Spec §4.1: `shouldProcess(key, nowEpochMs)`
returns true and records the key the first time it is seen within the
current window; returns false while a prior fresh record exists
(now − recorded timestamp < windowMs); after the window elapses the key
is treated as new again (returns true, timestamp refreshed).  Entries
are kept per key with their last recorded epoch-millisecond time. -/
structure MessageDeduplicator where
  windowMs : ℕ
  entries : List (String × ℕ)
deriving DecidableEq

/-- Lookup of the fresh entry recorded for a key (first match). -/
def lookupEntry (key : String) : List (String × ℕ) → Option ℕ
  | [] => none
  | (k, t) :: rest => if k = key then some t else lookupEntry key rest

/-- Modelled from the spec: inserting/overwriting the entry for `key`
(spec §4.1, side effect of a call that returns true). -/
def recordEntry (key : String) (now : ℕ) (d : MessageDeduplicator) :
    MessageDeduplicator :=
  { d with entries := (key, now) :: d.entries.filter (fun e => e.1 ≠ key) }

/-- Modelled from the spec: `shouldProcess(key, nowEpochMs) -> bool`
together with its state update. -/
def shouldProcess (d : MessageDeduplicator) (key : String) (now : ℕ) :
    Bool × MessageDeduplicator :=
  match lookupEntry key d.entries with
  | some seen =>
    if now - seen < d.windowMs then (false, d)
    else (true, recordEntry key now d)
  | none => (true, recordEntry key now d)

theorem lookupEntry_recordEntry (key : String) (now : ℕ) (d : MessageDeduplicator) :
    lookupEntry key (recordEntry key now d).entries = some now := by
  simp [recordEntry, lookupEntry]

theorem shouldProcess_true_state (d : MessageDeduplicator) (key : String) (now : ℕ)
    (h : (shouldProcess d key now).1 = true) :
    (shouldProcess d key now).2 = recordEntry key now d := by
  unfold shouldProcess at h ⊢
  cases hl : lookupEntry key d.entries with
  | none => simp [hl]
  | some seen =>
    simp only [hl] at h ⊢
    by_cases hw : now - seen < d.windowMs
    · simp [hw] at h
    · simp [hw]

/-- C4: if `shouldProcess(k, t1)` returned true, then a second call at
`t2 > t1` on the resulting state returns false when `t2 − t1 < windowMs`,
and returns true with the recorded timestamp refreshed to `t2` when
`t2 − t1 ≥ windowMs`. -/
theorem dedup_window_property (d : MessageDeduplicator) (key : String) (t1 t2 : ℕ)
    (_hlt : t1 < t2) (h1 : (shouldProcess d key t1).1 = true) :
    (t2 - t1 < d.windowMs →
      (shouldProcess (shouldProcess d key t1).2 key t2).1 = false) ∧
    (d.windowMs ≤ t2 - t1 →
      (shouldProcess (shouldProcess d key t1).2 key t2).1 = true ∧
      lookupEntry key ((shouldProcess (shouldProcess d key t1).2 key t2).2).entries =
        some t2) := by
  rw [shouldProcess_true_state d key t1 h1]
  have hwin : (recordEntry key t1 d).windowMs = d.windowMs := rfl
  constructor
  · intro hsmall
    simp [shouldProcess, lookupEntry_recordEntry, hwin, hsmall]
  · intro hbig
    have hnot : ¬ t2 - t1 < d.windowMs := not_lt.mpr hbig
    constructor
    · simp [shouldProcess, lookupEntry_recordEntry, hwin, hnot]
    · simp [shouldProcess, lookupEntry_recordEntry, hwin, hnot]

/-- Witness for C4, matching the unit test scenario: window 1000 ms,
first call at T returns true; a call at T+2000 returns true again and
refreshes the timestamp (and a call at T+10 would return false). -/
theorem dedup_window_property_witness :
    ((0 : ℕ) < 2000) ∧
    (shouldProcess ⟨1000, []⟩ "m1" 0).1 = true ∧
    (shouldProcess (shouldProcess ⟨1000, []⟩ "m1" 0).2 "m1" 2000).1 = true ∧
    lookupEntry "m1"
      ((shouldProcess (shouldProcess ⟨1000, []⟩ "m1" 0).2 "m1" 2000).2).entries =
        some 2000 ∧
    (shouldProcess (shouldProcess ⟨1000, []⟩ "m1" 0).2 "m1" 10).1 = false := by
  have h2000 := (dedup_window_property ⟨1000, []⟩ "m1" 0 2000 (by decide)
    (by decide)).2 (by decide)
  have h10 := (dedup_window_property ⟨1000, []⟩ "m1" 0 10 (by decide)
    (by decide)).1 (by decide)
  exact ⟨by decide, by decide, h2000.1, h2000.2, h10⟩

/-! ## Terminator (`message-storage/src/utils/termination.ts`)

The returned `terminate(reason, exitCode)` function synchronously checks
and sets the `terminating` flag before its first await, arms a hard
timeout of `timeoutMs` (defaulting to 10000) whose callback calls
`onExit(1)`, awaits the injected `shutdown` callback, and on its
resolution (or rejection) clears the timer and calls `onExit` with the
requested code (or 1 on rejection).  This is embedded as a state machine
over timed events of the single-threaded event loop: a `trigger`
(invocation of `terminate`), the cleanup callback resolving or
rejecting, and the timer firing — the latter possible only when the
timer is still armed and at least `timeoutMs` has elapsed since it was
armed. -/

structure TermState where
  terminating : Bool
  cleanupStarts : ℕ
  cleanupPending : Bool
  pendingCode : ℕ
  timerArmed : Bool
  armedAt : ℕ
  exitCalls : List (ℕ × ℕ)
  timeoutMs : ℕ
deriving DecidableEq

def TermState.start (timeoutMs : ℕ) : TermState :=
  ⟨false, 0, false, 0, false, 0, [], timeoutMs⟩

inductive TermEvent where
  | trigger (code : ℕ)
  | cleanupDone
  | cleanupFail
  | timeoutFire
deriving DecidableEq

/-- One event of the terminator's event loop, at time `t`. -/
def termStep (s : TermState) (t : ℕ) (e : TermEvent) : TermState :=
  match e with
  | .trigger code =>
    if s.terminating then s
    else { s with terminating := true, cleanupStarts := s.cleanupStarts + 1,
                  cleanupPending := true, pendingCode := code,
                  timerArmed := true, armedAt := t }
  | .cleanupDone =>
    if s.cleanupPending then
      { s with cleanupPending := false, timerArmed := false,
               exitCalls := s.exitCalls ++ [(t, s.pendingCode)] }
    else s
  | .cleanupFail =>
    if s.cleanupPending then
      { s with cleanupPending := false, timerArmed := false,
               exitCalls := s.exitCalls ++ [(t, 1)] }
    else s
  | .timeoutFire =>
    if s.timerArmed ∧ s.armedAt + s.timeoutMs ≤ t then
      { s with timerArmed := false, exitCalls := s.exitCalls ++ [(t, 1)] }
    else s

def termRun (s : TermState) : List (ℕ × TermEvent) → TermState
  | [] => s
  | (t, e) :: rest => termRun (termStep s t e) rest

theorem termStep_trigger_noop (s : TermState) (t code : ℕ)
    (h : s.terminating = true) : termStep s t (.trigger code) = s := by
  simp [termStep, h]

theorem termRun_triggers_noop (s : TermState) (h : s.terminating = true) :
    ∀ codes : List (ℕ × ℕ),
      termRun s (codes.map (fun p => (p.1, TermEvent.trigger p.2))) = s := by
  intro codes
  induction codes with
  | nil => rfl
  | cons c rest ih =>
    simp only [List.map_cons, termRun, termStep_trigger_noop s c.1 c.2 h]
    exact ih

theorem termStep_terminating_mono (s : TermState) (t : ℕ) (e : TermEvent)
    (h : s.terminating = true) : (termStep s t e).terminating = true := by
  cases e with
  | trigger code => simp [termStep, h]
  | cleanupDone => by_cases hp : s.cleanupPending <;> simp [termStep, hp, h]
  | cleanupFail => by_cases hp : s.cleanupPending <;> simp [termStep, hp, h]
  | timeoutFire =>
    by_cases ht : s.timerArmed ∧ s.armedAt + s.timeoutMs ≤ t <;>
      simp [termStep, ht, h]

/-- C5: start from the idle state; a first trigger at `t0` with code
`c0`, then any number of further triggers while cleanup is pending, then
the cleanup callback resolving at `tc`, then any number of further
triggers: the cleanup callback was started exactly once, the exit
function was called exactly once (with the first caller's code), and
`terminating` holds at the end.  Moreover on any `terminating` state a
trigger is a no-op and no event ever resets `terminating`. -/
theorem terminator_exactly_once (timeoutMs t0 c0 tc : ℕ)
    (mid post : List (ℕ × ℕ)) :
    (termRun (TermState.start timeoutMs)
        ((t0, .trigger c0) ::
          (mid.map (fun p => (p.1, TermEvent.trigger p.2)) ++
            (tc, TermEvent.cleanupDone) ::
              post.map (fun p => (p.1, TermEvent.trigger p.2))))).cleanupStarts = 1 ∧
    (termRun (TermState.start timeoutMs)
        ((t0, .trigger c0) ::
          (mid.map (fun p => (p.1, TermEvent.trigger p.2)) ++
            (tc, TermEvent.cleanupDone) ::
              post.map (fun p => (p.1, TermEvent.trigger p.2))))).exitCalls =
        [(tc, c0)] ∧
    (termRun (TermState.start timeoutMs)
        ((t0, .trigger c0) ::
          (mid.map (fun p => (p.1, TermEvent.trigger p.2)) ++
            (tc, TermEvent.cleanupDone) ::
              post.map (fun p => (p.1, TermEvent.trigger p.2))))).terminating =
        true ∧
    (∀ s : TermState, ∀ t code : ℕ, s.terminating = true →
      termStep s t (.trigger code) = s) ∧
    (∀ s : TermState, ∀ t : ℕ, ∀ e : TermEvent, s.terminating = true →
      (termStep s t e).terminating = true) := by
  have hrun : ∀ s : TermState, ∀ evs rest : List (ℕ × TermEvent),
      termRun s (evs ++ rest) = termRun (termRun s evs) rest := by
    intro s evs
    induction evs generalizing s with
    | nil => intro rest; rfl
    | cons p t ih => intro rest; cases p; simp only [List.cons_append, termRun]; exact ih _ _
  set s1 : TermState :=
    ⟨true, 1, true, c0, true, t0, [], timeoutMs⟩ with hs1
  have hfirst : termStep (TermState.start timeoutMs) t0 (.trigger c0) = s1 := by
    simp [termStep, TermState.start, hs1]
  have hmid : termRun s1 (mid.map (fun p => (p.1, TermEvent.trigger p.2))) = s1 :=
    termRun_triggers_noop s1 rfl mid
  set s2 : TermState :=
    ⟨true, 1, false, c0, false, t0, [(tc, c0)], timeoutMs⟩ with hs2
  have hdone : termStep s1 tc .cleanupDone = s2 := by
    simp [termStep, hs1, hs2]
  have hpost : termRun s2 (post.map (fun p => (p.1, TermEvent.trigger p.2))) = s2 :=
    termRun_triggers_noop s2 rfl post
  have hfinal : termRun (TermState.start timeoutMs)
      ((t0, .trigger c0) ::
        (mid.map (fun p => (p.1, TermEvent.trigger p.2)) ++
          (tc, TermEvent.cleanupDone) ::
            post.map (fun p => (p.1, TermEvent.trigger p.2)))) = s2 := by
    simp only [termRun, hfirst]
    rw [hrun, hmid]
    simp only [termRun, hdone]
    exact hpost
  rw [hfinal]
  exact ⟨rfl, rfl, rfl, termStep_trigger_noop, termStep_terminating_mono⟩

/-- Witness for C5: timeout 500, a trigger at time 0 with exit code 0, a
duplicate trigger at time 1, cleanup resolving at time 5, a late
duplicate trigger at time 7: one cleanup start, exactly one exit call
`(5, 0)`, `terminating` still set; and a duplicate trigger on a concrete
terminating state is a no-op whose flag stays set. -/
theorem terminator_exactly_once_witness :
    (termRun (TermState.start 500)
        [(0, .trigger 0), (1, .trigger 0), (5, .cleanupDone),
         (7, .trigger 0)]).cleanupStarts = 1 ∧
    (termRun (TermState.start 500)
        [(0, .trigger 0), (1, .trigger 0), (5, .cleanupDone),
         (7, .trigger 0)]).exitCalls = [(5, 0)] ∧
    (termRun (TermState.start 500)
        [(0, .trigger 0), (1, .trigger 0), (5, .cleanupDone),
         (7, .trigger 0)]).terminating = true ∧
    termStep ⟨true, 1, true, 0, true, 0, [], 500⟩ 3 (.trigger 9) =
      ⟨true, 1, true, 0, true, 0, [], 500⟩ ∧
    (termStep ⟨true, 1, true, 0, true, 0, [], 500⟩ 3 .cleanupFail).terminating =
      true := by
  have h := terminator_exactly_once 500 0 0 5 [(1, 0)] [(7, 0)]
  refine ⟨?_, ?_, ?_, h.2.2.2.1 _ 3 9 rfl, h.2.2.2.2 _ 3 .cleanupFail rfl⟩
  · have := h.1
    simpa using this
  · have := h.2.1
    simpa using this
  · have := h.2.2.1
    simpa using this

/-- Events that are neither the cleanup callback resolving nor
rejecting: traces made of these model a cleanup that never resolves. -/
def NoCleanupEvents (evs : List (ℕ × TermEvent)) : Prop :=
  ∀ p ∈ evs, p.2 ≠ TermEvent.cleanupDone ∧ p.2 ≠ TermEvent.cleanupFail

theorem termRun_nocleanup_inv (t0 T : ℕ) :
    ∀ evs : List (ℕ × TermEvent), NoCleanupEvents evs →
      ∀ s : TermState, s.terminating = true → s.armedAt = t0 → s.timeoutMs = T →
        (∀ q ∈ s.exitCalls, q.2 = 1 ∧ t0 + T ≤ q.1) →
        (termRun s evs).terminating = true ∧ (termRun s evs).armedAt = t0 ∧
        (termRun s evs).timeoutMs = T ∧
        (∀ q ∈ (termRun s evs).exitCalls, q.2 = 1 ∧ t0 + T ≤ q.1) := by
  intro evs
  induction evs with
  | nil => intro _ s h1 h2 h3 h4; exact ⟨h1, h2, h3, h4⟩
  | cons p rest ih =>
    intro hnc s h1 h2 h3 h4
    obtain ⟨t, e⟩ := p
    have hrest : NoCleanupEvents rest := fun q hq => hnc q (List.mem_cons_of_mem _ hq)
    have hp := hnc (t, e) (List.mem_cons_self _ _)
    cases e with
    | trigger code =>
      simpa [termRun, termStep_trigger_noop s t code h1] using
        ih hrest s h1 h2 h3 h4
    | cleanupDone => exact absurd rfl hp.1
    | cleanupFail => exact absurd rfl hp.2
    | timeoutFire =>
      by_cases hfire : s.timerArmed ∧ s.armedAt + s.timeoutMs ≤ t
      · have hstep : termStep s t .timeoutFire =
            { s with timerArmed := false, exitCalls := s.exitCalls ++ [(t, 1)] } := by
          simp [termStep, hfire]
        rw [termRun, hstep]
        refine ih hrest _ h1 h2 h3 ?_
        intro q hq
        rcases List.mem_append.mp hq with hq | hq
        · exact h4 q hq
        · simp only [List.mem_singleton] at hq
          subst hq
          exact ⟨rfl, by rw [← h2, ← h3]; exact hfire.2⟩
      · have hstep : termStep s t .timeoutFire = s := by
          simp only [termStep]
          rw [if_neg hfire]
        rw [termRun, hstep]
        exact ih hrest s h1 h2 h3 h4

/-- C6: after a trigger at `t0` arming the hard timeout of `T` ms, (a)
along any continuation in which the cleanup callback never resolves nor
rejects, every exit call carries code 1 and happens no earlier than
`t0 + T`; (b) when the timer fires at any `t1 ≥ t0 + T` the exit call
`(t1, 1)` is made; (c) if cleanup resolves at `t1` the timer is
disarmed, the exit call is `(t1, c0)` with the caller-specified code,
and a later firing attempt of the (cancelled) timer changes nothing. -/
theorem terminator_timeout_bound (T t0 c0 : ℕ) :
    (∀ evs : List (ℕ × TermEvent), NoCleanupEvents evs →
      ∀ q ∈ (termRun (termStep (TermState.start T) t0 (.trigger c0)) evs).exitCalls,
        q.2 = 1 ∧ t0 + T ≤ q.1) ∧
    (∀ t1, t0 + T ≤ t1 →
      (termRun (TermState.start T)
        [(t0, .trigger c0), (t1, .timeoutFire)]).exitCalls = [(t1, 1)]) ∧
    (∀ t1 t2 : ℕ,
      (termRun (TermState.start T)
        [(t0, .trigger c0), (t1, .cleanupDone)]).timerArmed = false ∧
      (termRun (TermState.start T)
        [(t0, .trigger c0), (t1, .cleanupDone), (t2, .timeoutFire)]).exitCalls =
          [(t1, c0)]) := by
  have hfirst : termStep (TermState.start T) t0 (.trigger c0) =
      ⟨true, 1, true, c0, true, t0, [], T⟩ := by
    simp [termStep, TermState.start]
  refine ⟨?_, ?_, ?_⟩
  · intro evs hnc
    rw [hfirst]
    exact (termRun_nocleanup_inv t0 T evs hnc _ rfl rfl rfl (by simp)).2.2.2
  · intro t1 h1
    simp [termRun, termStep, TermState.start, h1]
  · intro t1 t2
    constructor
    · simp [termRun, termStep, TermState.start]
    · simp [termRun, termStep, TermState.start]

/-- Witness for C6: timeout 20 armed by a trigger at time 0 with code 0.
With cleanup never resolving, the trace `[duplicate trigger at 3, timer
firing at 60]` yields the single exit call `(60, 1)` — code 1, at time
`≥ 0 + 20`; and with cleanup resolving at 5, the timer is disarmed and
only `(5, 0)` is exited even if a firing attempt follows at 60. -/
theorem terminator_timeout_bound_witness :
    NoCleanupEvents [(3, .trigger 0), (60, .timeoutFire)] ∧
    (termRun (termStep (TermState.start 20) 0 (.trigger 0))
        [(3, .trigger 0), (60, .timeoutFire)]).exitCalls = [(60, 1)] ∧
    ((60 : ℕ), (1 : ℕ)).2 = 1 ∧ (0 : ℕ) + 20 ≤ ((60 : ℕ), (1 : ℕ)).1 ∧
    (termRun (TermState.start 20) [(0, .trigger 0), (60, .timeoutFire)]).exitCalls =
      [(60, 1)] ∧
    (termRun (TermState.start 20) [(0, .trigger 0), (5, .cleanupDone)]).timerArmed =
      false ∧
    (termRun (TermState.start 20)
        [(0, .trigger 0), (5, .cleanupDone), (60, .timeoutFire)]).exitCalls =
      [(5, 0)] := by
  have h := terminator_timeout_bound 20 0 0
  have hnc : NoCleanupEvents [(3, .trigger 0), (60, .timeoutFire)] := by
    unfold NoCleanupEvents
    decide
  have hmem := h.1 [(3, .trigger 0), (60, .timeoutFire)] hnc (60, 1)
    (by decide)
  exact ⟨hnc, by decide, hmem.1, hmem.2, h.2.1 60 (by decide), (h.2.2 5 60).1,
    (h.2.2 5 60).2⟩

/-! ## EmbeddingService (`message-storage/src/services/embeddings`)

Embeds the degraded-mode variant of the service: the constructor takes
an embedding configuration, tries to create the configured primary and
(optionally) fallback providers, records an unavailable reason instead
of throwing when the primary credential is absent unless `required` is
set, and `generate`/`generateBatch` escalate primary → fallback through
the retry executor while updating per-provider statistics.  Provider
network behaviour is supplied by an environment giving each retry
attempt's outcome and the measured latencies. -/

inductive ProviderType where
  | openai
  | gemini
deriving DecidableEq

structure EmbeddingConfig where
  provider : ProviderType
  fallbackProvider : Option ProviderType
  required : Bool
  openaiApiKey : String
  geminiApiKey : String
deriving DecidableEq

structure EmbProvider where
  name : String
  dimensions : ℕ
deriving DecidableEq

/-- Provider factory (`providers/index.ts`): both concrete providers
expose 1536 padded dimensions. -/
def createEmbeddingProvider : ProviderType → EmbProvider
  | .openai => ⟨"openai", 1536⟩
  | .gemini => ⟨"gemini", 1536⟩

/-- The credential the service checks for a provider type. -/
def keyFor (cfg : EmbeddingConfig) : ProviderType → String
  | .openai => cfg.openaiApiKey
  | .gemini => cfg.geminiApiKey

def missingKeyMessage : ProviderType → String
  | .openai =>
    "[EmbeddingService] OpenAI provider configured but OPENAI_API_KEY is missing"
  | .gemini =>
    "[EmbeddingService] Gemini provider configured but GEMINI_API_KEY is missing"

/-- Embeds `EmbeddingService.tryCreateProvider`: yields the provider (or
none when the credential is the empty string) and the updated
`unavailableReason`, which is set only for the primary attempt. -/
def tryCreateProvider (cfg : EmbeddingConfig) (t : ProviderType)
    (forPrimary : Bool) (reason : Option String) :
    Option EmbProvider × Option String :=
  if keyFor cfg t = "" then
    (none, if forPrimary then some (missingKeyMessage t) else reason)
  else
    (some (createEmbeddingProvider t), reason)

structure ProviderStats where
  provider : String
  requestCount : ℕ
  successCount : ℕ
  failureCount : ℕ
  totalLatency : ℕ
  avgLatency : ℚ
  totalTokens : ℕ
deriving DecidableEq

def initStats (name : String) : ProviderStats := ⟨name, 0, 0, 0, 0, 0, 0⟩

structure EmbeddingService where
  primary : Option EmbProvider
  fallback : Option EmbProvider
  stats : List ProviderStats
  unavailableReason : Option String
deriving DecidableEq

/-- Embeds the constructor: create primary, create fallback if
configured, then throw when no primary exists and embeddings are
required; otherwise initialize the per-provider stats. -/
def EmbeddingService.construct (cfg : EmbeddingConfig) :
    Except String EmbeddingService :=
  let pr := tryCreateProvider cfg cfg.provider true none
  let fr :=
    match cfg.fallbackProvider with
    | some fp => tryCreateProvider cfg fp false pr.2
    | none => ((none : Option EmbProvider), pr.2)
  if pr.1 = none ∧ cfg.required = true then
    .error (fr.2.getD
      "Embeddings are required but no valid embedding provider could be initialized")
  else
    .ok ⟨pr.1, fr.1,
      (pr.1.map fun p => initStats p.name).toList ++
        (fr.1.map fun p => initStats p.name).toList,
      fr.2⟩

def EmbeddingService.isAvailable (s : EmbeddingService) : Bool :=
  s.primary.isSome

def EmbeddingService.getDimensions (s : EmbeddingService) : ℕ :=
  match s.primary with
  | some p => p.dimensions
  | none => 0

def recordRequest (name : String) (stats : List ProviderStats) :
    List ProviderStats :=
  stats.map fun st =>
    if st.provider = name then { st with requestCount := st.requestCount + 1 }
    else st

def recordSuccess (name : String) (latency tokens : ℕ)
    (stats : List ProviderStats) : List ProviderStats :=
  stats.map fun st =>
    if st.provider = name then
      { st with successCount := st.successCount + 1,
                totalLatency := st.totalLatency + latency,
                avgLatency :=
                  ((st.totalLatency + latency : ℕ) : ℚ) /
                    ((st.successCount + 1 : ℕ) : ℚ),
                totalTokens := st.totalTokens + tokens }
    else st

def recordFailure (name : String) (stats : List ProviderStats) :
    List ProviderStats :=
  stats.map fun st =>
    if st.provider = name then { st with failureCount := st.failureCount + 1 }
    else st

/-- Errors `generate`/`generateBatch` signal to the caller. -/
inductive GenError where
  | emptyText
  | unavailable (reason : String)
  | provider (message : String)
deriving DecidableEq

/-- Environment for one service call: the outcome of each retry attempt
against the primary and fallback providers, and the measured latencies. -/
structure GenEnv (α : Type) where
  primaryAttempts : ℕ → Except String α
  fallbackAttempts : ℕ → Except String α
  primaryLatency : ℕ
  fallbackLatency : ℕ

/-- Result of a service call: the value or error signaled to the caller,
the service with its updated stats, and the providers engaged (in
order). -/
structure GenOutcome (α : Type) where
  result : Except GenError α
  service : EmbeddingService
  providerCalls : List String

def unavailableMessage (s : EmbeddingService) : String :=
  s.unavailableReason.getD "Embedding provider is unavailable in degraded mode"

/-- Blank-text check (`!text || text.trim().length === 0`): a string is
blank exactly when every character is whitespace (trimming leading and
trailing whitespace then leaves nothing). -/
def isBlank (s : String) : Bool :=
  s.data.all fun c => c.isWhitespace

/-- Embeds `EmbeddingService.generate`: reject blank text, fail with the
recorded unavailable reason when no primary exists, otherwise retry the
primary (3 attempts) and then, if configured, the fallback (3 attempts);
when the fallback also exhausts, the error thrown to the caller is the
fallback's last error. -/
def EmbeddingService.generate (svc : EmbeddingService)
    (env : GenEnv (List ℤ)) (text : String) : GenOutcome (List ℤ × String) :=
  if isBlank text then ⟨.error .emptyText, svc, []⟩
  else
    match svc.primary with
    | none => ⟨.error (.unavailable (unavailableMessage svc)), svc, []⟩
    | some p =>
      let stats1 := recordRequest p.name svc.stats
      match retryRun env.primaryAttempts 1 3 with
      | .ok emb =>
        ⟨.ok (emb, p.name),
         { svc with stats := recordSuccess p.name env.primaryLatency 0 stats1 },
         [p.name]⟩
      | .error ep =>
        let stats2 := recordFailure p.name stats1
        match svc.fallback with
        | some f =>
          let stats3 := recordRequest f.name stats2
          match retryRun env.fallbackAttempts 1 3 with
          | .ok emb =>
            ⟨.ok (emb, f.name),
             { svc with stats :=
                recordSuccess f.name env.fallbackLatency 0 stats3 },
             [p.name, f.name]⟩
          | .error ef =>
            ⟨.error (.provider ef),
             { svc with stats := recordFailure f.name stats3 },
             [p.name, f.name]⟩
        | none => ⟨.error (.provider ep), { svc with stats := stats2 }, [p.name]⟩

/-- Embeds `EmbeddingService.generateBatch`: return `[]` for an empty
input, filter out blank texts and return `[]` when none remain, then the
same unavailability check and primary → fallback escalation as
`generate`. -/
def EmbeddingService.generateBatch (svc : EmbeddingService)
    (env : GenEnv (List (List ℤ))) (texts : List String) :
    GenOutcome (List (List ℤ × String)) :=
  if texts.length = 0 then ⟨.ok [], svc, []⟩
  else
    let validTexts := texts.filter fun t => !isBlank t
    if validTexts.length = 0 then ⟨.ok [], svc, []⟩
    else
      match svc.primary with
      | none => ⟨.error (.unavailable (unavailableMessage svc)), svc, []⟩
      | some p =>
        let stats1 := recordRequest p.name svc.stats
        match retryRun env.primaryAttempts 1 3 with
        | .ok embs =>
          ⟨.ok (embs.map fun e => (e, p.name)),
           { svc with stats := recordSuccess p.name env.primaryLatency 0 stats1 },
           [p.name]⟩
        | .error ep =>
          let stats2 := recordFailure p.name stats1
          match svc.fallback with
          | some f =>
            let stats3 := recordRequest f.name stats2
            match retryRun env.fallbackAttempts 1 3 with
            | .ok embs =>
              ⟨.ok (embs.map fun e => (e, f.name)),
               { svc with stats :=
                  recordSuccess f.name env.fallbackLatency 0 stats3 },
               [p.name, f.name]⟩
            | .error ef =>
              ⟨.error (.provider ef),
               { svc with stats := recordFailure f.name stats3 },
               [p.name, f.name]⟩
          | none =>
            ⟨.error (.provider ep), { svc with stats := stats2 }, [p.name]⟩

/-- C7: with the primary provider's credential absent (and any
configured fallback's credential absent as well) and `required = false`,
construction succeeds in degraded mode with `isAvailable() = false`,
`getDimensions() = 0`, and every `generate` call on non-blank text fails
with the `unavailable` error carrying the recorded reason; with
`required = true` construction itself fails (throwing that reason). -/
theorem embedding_degraded_mode (cfg : EmbeddingConfig)
    (hkey : keyFor cfg cfg.provider = "")
    (hfb : ∀ fp, cfg.fallbackProvider = some fp → keyFor cfg fp = "") :
    (cfg.required = false →
      EmbeddingService.construct cfg =
        .ok ⟨none, none, [], some (missingKeyMessage cfg.provider)⟩ ∧
      (EmbeddingService.construct cfg).map EmbeddingService.isAvailable =
        .ok false ∧
      (EmbeddingService.construct cfg).map EmbeddingService.getDimensions =
        .ok 0 ∧
      ∀ env : GenEnv (List ℤ), ∀ text : String, isBlank text = false →
        (EmbeddingService.construct cfg).map
            (fun svc => (svc.generate env text).result) =
          .ok (.error (.unavailable (missingKeyMessage cfg.provider)))) ∧
    (cfg.required = true →
      EmbeddingService.construct cfg = .error (missingKeyMessage cfg.provider)) := by
  have hpr : tryCreateProvider cfg cfg.provider true none =
      (none, some (missingKeyMessage cfg.provider)) := by
    simp [tryCreateProvider, hkey]
  have hok : ∀ hreq : cfg.required = false,
      EmbeddingService.construct cfg =
        .ok ⟨none, none, [], some (missingKeyMessage cfg.provider)⟩ := by
    intro hreq
    cases hfp : cfg.fallbackProvider with
    | none => simp [EmbeddingService.construct, hfp, hpr, hreq]
    | some fp =>
      have hk2 := hfb fp hfp
      simp [EmbeddingService.construct, hfp, hreq, tryCreateProvider, hkey, hk2]
  constructor
  · intro hreq
    refine ⟨hok hreq, ?_, ?_, ?_⟩
    · rw [hok hreq]; rfl
    · rw [hok hreq]; rfl
    · intro env text ht
      rw [hok hreq]
      simp only [Except.map, EmbeddingService.generate, ht, Bool.false_eq_true,
        if_false]
      rfl
  · intro hreq
    cases hfp : cfg.fallbackProvider with
    | none => simp [EmbeddingService.construct, hfp, hpr, hreq]
    | some fp =>
      have hk2 := hfb fp hfp
      simp [EmbeddingService.construct, hfp, hreq, tryCreateProvider, hkey, hk2]

/-- Witness for C7 at the unit test's configuration (`provider: openai`,
no fallback, empty API keys): degraded mode with `required = false`,
hard construction failure with `required = true`. -/
theorem embedding_degraded_mode_witness :
    keyFor ⟨.openai, none, false, "", ""⟩ ProviderType.openai = "" ∧
    EmbeddingService.construct ⟨.openai, none, false, "", ""⟩ =
      .ok ⟨none, none, [], some (missingKeyMessage .openai)⟩ ∧
    (EmbeddingService.construct ⟨.openai, none, false, "", ""⟩).map
        EmbeddingService.isAvailable = .ok false ∧
    (EmbeddingService.construct ⟨.openai, none, false, "", ""⟩).map
        EmbeddingService.getDimensions = .ok 0 ∧
    (EmbeddingService.construct ⟨.openai, none, false, "", ""⟩).map
        (fun svc =>
          (svc.generate ⟨fun _ => .error "net", fun _ => .error "net", 0, 0⟩
            "hello").result) =
      .ok (.error (.unavailable (missingKeyMessage .openai))) ∧
    EmbeddingService.construct ⟨.openai, none, true, "", ""⟩ =
      .error (missingKeyMessage .openai) := by
  have h0 := embedding_degraded_mode ⟨.openai, none, false, "", ""⟩ rfl
    (fun fp h => by cases h)
  have h1 := embedding_degraded_mode ⟨.openai, none, true, "", ""⟩ rfl
    (fun fp h => by cases h)
  have hd := h0.1 rfl
  exact ⟨rfl, hd.1, hd.2.1, hd.2.2.1,
    hd.2.2.2 ⟨fun _ => .error "net", fun _ => .error "net", 0, 0⟩ "hello"
      (by decide), h1.2 rfl⟩

instance {ε α : Type} [DecidableEq ε] [DecidableEq α] :
    DecidableEq (Except ε α) := fun x y =>
  match x, y with
  | .ok a, .ok b =>
    if h : a = b then .isTrue (by rw [h])
    else .isFalse (fun hc => h (Except.ok.inj hc))
  | .error a, .error b =>
    if h : a = b then .isTrue (by rw [h])
    else .isFalse (fun hc => h (Except.error.inj hc))
  | .ok _, .error _ => .isFalse (fun hc => Except.noConfusion hc)
  | .error _, .ok _ => .isFalse (fun hc => Except.noConfusion hc)

/-- C2 counterexample: a service with both providers configured, every
primary attempt failing with "primary boom" and every fallback attempt
failing with "fallback boom": `generate` signals the FALLBACK's last
error to the caller, not the primary's — refuting the claim that the
primary's last error is re-raised. -/
theorem embedding_primary_error_counterexample :
    (EmbeddingService.construct ⟨.openai, some .gemini, false, "k1", "k2"⟩).map
        (fun svc =>
          (svc.generate
            ⟨fun _ => .error "primary boom", fun _ => .error "fallback boom",
              0, 0⟩ "hola").result) =
      .ok (.error (.provider "fallback boom")) ∧
    (EmbeddingService.construct ⟨.openai, some .gemini, false, "k1", "k2"⟩).map
        (fun svc =>
          (svc.generate
            ⟨fun _ => .error "primary boom", fun _ => .error "fallback boom",
              0, 0⟩ "hola").result) ≠
      .ok (.error (.provider "primary boom")) := by
  exact ⟨by decide, by decide⟩

/-- C2 amended: when the primary exhausts its retries with last error
`ep` and a configured fallback exhausts its retries with last error `ef`
(`epB`/`efB` for the batch call), the error signaled to the caller by
`generate` (resp. `generateBatch`) is the FALLBACK's last error; the
primary's is only logged. -/
theorem embedding_fallback_error_signaled (svc : EmbeddingService)
    (env : GenEnv (List ℤ)) (envB : GenEnv (List (List ℤ)))
    (text : String) (texts : List String) (p f : EmbProvider)
    (ep ef epB efB : String)
    (hp : svc.primary = some p) (hf : svc.fallback = some f)
    (ht : isBlank text = false)
    (h1 : retryRun env.primaryAttempts 1 3 = .error ep)
    (h2 : retryRun env.fallbackAttempts 1 3 = .error ef)
    (hts : (texts.filter fun t => !isBlank t).length ≠ 0)
    (h3 : retryRun envB.primaryAttempts 1 3 = .error epB)
    (h4 : retryRun envB.fallbackAttempts 1 3 = .error efB) :
    (svc.generate env text).result = .error (.provider ef) ∧
    (svc.generateBatch envB texts).result = .error (.provider efB) := by
  constructor
  · simp [EmbeddingService.generate, ht, hp, h1, hf, h2]
  · have hlen : texts.length ≠ 0 := by
      intro h0
      rw [List.length_eq_zero] at h0
      subst h0
      simp at hts
    simp [EmbeddingService.generateBatch, hlen, hts, hp, h3, hf, h4]

/-- Witness for C2's amended theorem: both retry sequences exhaust with
distinct errors; the caller sees the fallback's. -/
theorem embedding_fallback_error_signaled_witness :
    retryRun (fun _ : ℕ => (Except.error "p-err" : Except String (List ℤ))) 1 3 =
      .error "p-err" ∧
    retryRun (fun _ : ℕ => (Except.error "f-err" : Except String (List ℤ))) 1 3 =
      .error "f-err" ∧
    isBlank "hola" = false ∧
    ((⟨some ⟨"openai", 1536⟩, some ⟨"gemini", 1536⟩,
        [initStats "openai", initStats "gemini"], none⟩ :
          EmbeddingService).generate
        ⟨fun _ => .error "p-err", fun _ => .error "f-err", 0, 0⟩ "hola").result =
      .error (.provider "f-err") ∧
    ((⟨some ⟨"openai", 1536⟩, some ⟨"gemini", 1536⟩,
        [initStats "openai", initStats "gemini"], none⟩ :
          EmbeddingService).generateBatch
        ⟨fun _ => .error "pb-err", fun _ => .error "fb-err", 0, 0⟩
        ["hola"]).result = .error (.provider "fb-err") := by
  have h := embedding_fallback_error_signaled
    ⟨some ⟨"openai", 1536⟩, some ⟨"gemini", 1536⟩,
      [initStats "openai", initStats "gemini"], none⟩
    ⟨fun _ => .error "p-err", fun _ => .error "f-err", 0, 0⟩
    ⟨fun _ => .error "pb-err", fun _ => .error "fb-err", 0, 0⟩
    "hola" ["hola"] ⟨"openai", 1536⟩ ⟨"gemini", 1536⟩
    "p-err" "f-err" "pb-err" "fb-err" rfl rfl (by decide) (by decide)
    (by decide) (by decide) (by decide) (by decide)
  exact ⟨by decide, by decide, by decide, h.1, h.2⟩

/-- C10: when every input text is blank (including the empty list),
`generateBatch` returns the empty list with no error, engages no
provider, and leaves the service's stats untouched — even when no
primary provider is available; by contrast `generate` fails on blank
input with the empty-text error and, on non-blank input without a
primary, with the unavailable error. -/
theorem generateBatch_blank_noop (svc : EmbeddingService)
    (env : GenEnv (List (List ℤ))) (texts : List String)
    (h : texts.filter (fun t => !isBlank t) = []) :
    svc.generateBatch env texts = ⟨.ok [], svc, []⟩ ∧
    (∀ env1 : GenEnv (List ℤ), ∀ t : String, isBlank t = true →
      (svc.generate env1 t).result = .error .emptyText) ∧
    (∀ env1 : GenEnv (List ℤ), ∀ t : String, svc.primary = none →
      isBlank t = false →
      (svc.generate env1 t).result =
        .error (.unavailable (unavailableMessage svc))) := by
  refine ⟨?_, ?_, ?_⟩
  · by_cases h0 : texts.length = 0
    · simp [EmbeddingService.generateBatch, h0]
    · simp [EmbeddingService.generateBatch, h0, h]
  · intro env1 t hb
    simp [EmbeddingService.generate, hb]
  · intro env1 t hnone hnb
    simp [EmbeddingService.generate, hnb, hnone]

/-- Witness for C10: the unavailable service (no providers) on the
blank-only batch `["", "  "]` returns `[]` untouched, while `generate`
rejects blank text and fails unavailable on non-blank text. -/
theorem generateBatch_blank_noop_witness :
    (["", "  "].filter (fun t => !isBlank t)) = [] ∧
    (⟨none, none, [], none⟩ : EmbeddingService).generateBatch
        ⟨fun _ => .error "x", fun _ => .error "x", 0, 0⟩ ["", "  "] =
      ⟨.ok [], ⟨none, none, [], none⟩, []⟩ ∧
    ((⟨none, none, [], none⟩ : EmbeddingService).generate
        ⟨fun _ => .error "x", fun _ => .error "x", 0, 0⟩ "").result =
      .error .emptyText ∧
    ((⟨none, none, [], none⟩ : EmbeddingService).generate
        ⟨fun _ => .error "x", fun _ => .error "x", 0, 0⟩ "hey").result =
      .error (.unavailable
        "Embedding provider is unavailable in degraded mode") := by
  have h := generateBatch_blank_noop ⟨none, none, [], none⟩
    ⟨fun _ => .error "x", fun _ => .error "x", 0, 0⟩ ["", "  "] (by decide)
  exact ⟨by decide, h.1,
    h.2.1 ⟨fun _ => .error "x", fun _ => .error "x", 0, 0⟩ "" (by decide),
    h.2.2 ⟨fun _ => .error "x", fun _ => .error "x", 0, 0⟩ "hey" rfl (by decide)⟩

/-! ## Publisher channel lookup
(`PublisherService.getChannelForMessageType`)

The code builds a `Record<MessageType, string>` literal from the six
channel names in `config.redis.channels` and returns `channelMap[type]`.
At the JavaScript runtime an object member access on a key outside the
table yields `undefined`; it does not raise.  The lookup is embedded
over runtime category strings, with `none` playing the role of
`undefined`. -/

def channelMap : List (String × String) :=
  [("text", "memories:text:saved"),
   ("image", "memories:image:saved"),
   ("video", "memories:video:saved"),
   ("audio", "memories:audio:saved"),
   ("document", "memories:document:saved"),
   ("other", "memories:other:saved")]

def getChannelForMessageType (t : String) : Option String :=
  channelMap.lookup t

/-- C9 counterexample: for a category outside the known set the runtime
lookup yields no channel at all (`undefined`), refuting the claim that
the mapping fails closed by raising a configuration error rather than
producing no channel. -/
theorem channel_lookup_counterexample :
    getChannelForMessageType "sticker" = none := by
  decide

/-- C9 amended: the static lookup table maps each of the six known
message categories to exactly one channel name, and these channels are
pairwise distinct; for any category outside the known set the runtime
lookup produces no channel (`undefined`) — exhaustiveness over
categories is enforced statically by the `Record<MessageType, string>`
type, not by a runtime configuration error. -/
theorem channel_lookup_total_on_known (t : String) :
    (getChannelForMessageType "text" = some "memories:text:saved" ∧
     getChannelForMessageType "image" = some "memories:image:saved" ∧
     getChannelForMessageType "video" = some "memories:video:saved" ∧
     getChannelForMessageType "audio" = some "memories:audio:saved" ∧
     getChannelForMessageType "document" = some "memories:document:saved" ∧
     getChannelForMessageType "other" = some "memories:other:saved") ∧
    (channelMap.map Prod.snd).Nodup ∧
    (t ∉ channelMap.map Prod.fst → getChannelForMessageType t = none) := by
  refine ⟨by decide, by decide, ?_⟩
  intro hmem
  simp only [channelMap, List.map_cons, List.map_nil, List.mem_cons,
    List.mem_singleton, not_or] at hmem
  obtain ⟨h1, h2, h3, h4, h5, h6, _⟩ := hmem
  simp [getChannelForMessageType, channelMap, List.lookup,
    beq_eq_false_iff_ne.mpr h1, beq_eq_false_iff_ne.mpr h2,
    beq_eq_false_iff_ne.mpr h3, beq_eq_false_iff_ne.mpr h4,
    beq_eq_false_iff_ne.mpr h5, beq_eq_false_iff_ne.mpr h6]

/-- Witness for C9's amended theorem at the unknown category
`"sticker"`: all six known categories map to their channels and the
unknown one maps to nothing. -/
theorem channel_lookup_total_on_known_witness :
    "sticker" ∉ channelMap.map Prod.fst ∧
    getChannelForMessageType "text" = some "memories:text:saved" ∧
    getChannelForMessageType "sticker" = none := by
  have h := channel_lookup_total_on_known "sticker"
  exact ⟨by decide, h.1.1, h.2.2 (by decide)⟩

/-! ## Dead-letter sink (`whatsapp-collector/src/services/deadLetter.ts`)

`writeDeadLetterRecord(path, channel, payload, reason)` best-effort
parses the payload as JSON to read its `messageId` field (omitting it on
parse failure, never raising), then appends one JSON line
`{timestamp, reason, channel, messageId?, payload}` to the sink.  The
sink is embedded as the list of appended records; `JSON.parse` and
`JSON.stringify` are embedded as an executable parser and serializer
over a JSON value type (numbers restricted to integers and no `\u`
escapes — the parts of the grammar the dead-letter records exercise). -/

inductive Json where
  | null
  | bool (b : Bool)
  | num (n : ℤ)
  | str (s : String)
  | arr (elems : List Json)
  | obj (fields : List (String × Json))

def isJsonWs (c : Char) : Bool :=
  c = ' ' || c = '\n' || c = '\t' || c = '\r'

def skipWs : List Char → List Char
  | [] => []
  | c :: rest => if isJsonWs c then skipWs rest else c :: rest

def unescapeChar (c : Char) : Char :=
  if c = 'n' then '\n'
  else if c = 't' then '\t'
  else if c = 'r' then '\r'
  else if c = 'b' then Char.ofNat 8
  else if c = 'f' then Char.ofNat 12
  else c

/-- Consume a JSON string body up to its closing quote, decoding
escapes; returns the decoded characters and the remaining input. -/
def parseStringBody : List Char → Option (List Char × List Char)
  | [] => none
  | '"' :: rest => some ([], rest)
  | '\\' :: [] => none
  | '\\' :: e :: rest =>
    match parseStringBody rest with
    | some (acc, rem) => some (unescapeChar e :: acc, rem)
    | none => none
  | c :: rest =>
    match parseStringBody rest with
    | some (acc, rem) => some (c :: acc, rem)
    | none => none

def takeDigits : List Char → List Char × List Char
  | [] => ([], [])
  | c :: rest =>
    if c.isDigit then
      let p := takeDigits rest
      (c :: p.1, p.2)
    else ([], c :: rest)

def digitsToNat (ds : List Char) : ℕ :=
  ds.foldl (fun acc c => acc * 10 + (c.toNat - 48)) 0

mutual

def parseValue : ℕ → List Char → Option (Json × List Char)
  | 0, _ => none
  | fuel + 1, input =>
    match skipWs input with
    | [] => none
    | c :: rest =>
      if c = '"' then
        match parseStringBody rest with
        | some (cs, rem) => some (.str (String.mk cs), rem)
        | none => none
      else if c = '\x7b' then
        match skipWs rest with
        | [] => none
        | d :: rest2 =>
          if d = '\x7d' then some (.obj [], rest2)
          else
            match parseMembers fuel (d :: rest2) with
            | some (fs, rem) => some (.obj fs, rem)
            | none => none
      else if c = '[' then
        match skipWs rest with
        | [] => none
        | d :: rest2 =>
          if d = ']' then some (.arr [], rest2)
          else
            match parseElems fuel (d :: rest2) with
            | some (es, rem) => some (.arr es, rem)
            | none => none
      else if c = 't' then
        match rest with
        | 'r' :: 'u' :: 'e' :: rem => some (.bool true, rem)
        | _ => none
      else if c = 'f' then
        match rest with
        | 'a' :: 'l' :: 's' :: 'e' :: rem => some (.bool false, rem)
        | _ => none
      else if c = 'n' then
        match rest with
        | 'u' :: 'l' :: 'l' :: rem => some (.null, rem)
        | _ => none
      else if c = '-' then
        match takeDigits rest with
        | ([], _) => none
        | (ds, rem) => some (.num (-(digitsToNat ds : ℤ)), rem)
      else if c.isDigit then
        match takeDigits (c :: rest) with
        | (ds, rem) => some (.num ((digitsToNat ds : ℤ)), rem)
      else none

def parseMembers : ℕ → List Char → Option (List (String × Json) × List Char)
  | 0, _ => none
  | fuel + 1, input =>
    match skipWs input with
    | [] => none
    | c :: rest =>
      if c = '"' then
        match parseStringBody rest with
        | some (key, rem) =>
          match skipWs rem with
          | ':' :: rem2 =>
            match parseValue fuel rem2 with
            | some (v, rem3) =>
              match skipWs rem3 with
              | ',' :: rem4 =>
                match parseMembers fuel rem4 with
                | some (fs, rem5) => some ((String.mk key, v) :: fs, rem5)
                | none => none
              | d :: rem4 =>
                if d = '\x7d' then some ([(String.mk key, v)], rem4) else none
              | [] => none
            | none => none
          | _ => none
        | none => none
      else none

def parseElems : ℕ → List Char → Option (List Json × List Char)
  | 0, _ => none
  | fuel + 1, input =>
    match parseValue fuel input with
    | some (v, rem) =>
      match skipWs rem with
      | ',' :: rem2 =>
        match parseElems fuel rem2 with
        | some (es, rem3) => some (v :: es, rem3)
        | none => none
      | d :: rem2 => if d = ']' then some ([v], rem2) else none
      | [] => none
    | none => none

end

/-- Embeds `JSON.parse`: the whole input must be one JSON value
surrounded only by whitespace. -/
def jsonParse (s : String) : Option Json :=
  match parseValue (s.data.length + 1) s.data with
  | some (v, rem) => if skipWs rem = [] then some v else none
  | none => none

/-- Member access on a parsed object (duplicate keys: the last one
wins, as in `JSON.parse`). -/
def objGetLast (key : String) (fields : List (String × Json)) : Option Json :=
  ((fields.filter fun f => f.1 == key).getLast?).map Prod.snd

/-- Best-effort `messageId` extraction: parse the payload and read its
`messageId` member; on parse failure (or a non-object payload) the field
is omitted.  Total by construction — it can never raise. -/
def extractMessageId (payload : String) : Option Json :=
  match jsonParse payload with
  | some (.obj fields) => objGetLast "messageId" fields
  | _ => none

structure DeadLetterRecord where
  timestamp : String
  reason : Reason
  channel : String
  messageId : Option Json
  payload : String

def reasonCode : Reason → String
  | .queueFull => "queue-full"
  | .flushRequeueFull => "flush-requeue-full"
  | .shutdownUnflushed => "shutdown-unflushed"

/-- Embeds `writeDeadLetterRecord`: builds the record (timestamp,
reason, channel, best-effort messageId, the payload string unchanged)
and appends it to the sink. -/
def writeDeadLetterRecord (timestamp channel payload : String) (reason : Reason)
    (sink : List DeadLetterRecord) : List DeadLetterRecord :=
  sink ++ [⟨timestamp, reason, channel, extractMessageId payload, payload⟩]

def escapeChar (c : Char) : List Char :=
  if c = '"' then ['\\', '"']
  else if c = '\\' then ['\\', '\\']
  else if c = '\n' then ['\\', 'n']
  else if c = '\t' then ['\\', 't']
  else if c = '\r' then ['\\', 'r']
  else [c]

def escapeChars (s : List Char) : List Char :=
  (s.map escapeChar).flatten

/-- Serialized JSON string literal (quote, escaped body, quote). -/
def jstr (s : String) : List Char :=
  '"' :: (escapeChars s.data ++ ['"'])

mutual

def serializeJson : Json → List Char
  | .null => "null".data
  | .bool b => (if b then "true" else "false").data
  | .num n => (toString n).data
  | .str s => jstr s
  | .arr es => '[' :: (serializeElems es ++ [']'])
  | .obj fs => '\x7b' :: (serializeFields fs ++ ['\x7d'])

def serializeElems : List Json → List Char
  | [] => []
  | [e] => serializeJson e
  | e :: f :: rest => serializeJson e ++ (',' :: serializeElems (f :: rest))

def serializeFields : List (String × Json) → List Char
  | [] => []
  | [(k, v)] => jstr k ++ (':' :: serializeJson v)
  | (k, v) :: f :: rest =>
    (jstr k ++ (':' :: serializeJson v)) ++ (',' :: serializeFields (f :: rest))

end

/-- Embeds `JSON.stringify` of a dead-letter record: the object literal
field order is timestamp, reason, channel, messageId, payload, and an
absent (`undefined`) messageId is omitted entirely. -/
def serializeRecord (r : DeadLetterRecord) : List Char :=
  '\x7b' ::
    ((jstr "timestamp" ++ (':' :: jstr r.timestamp)) ++
     (',' :: (jstr "reason" ++ (':' :: jstr (reasonCode r.reason)))) ++
     (',' :: (jstr "channel" ++ (':' :: jstr r.channel))) ++
     (match r.messageId with
      | some v => ',' :: (jstr "messageId" ++ (':' :: serializeJson v))
      | none => []) ++
     (',' :: (jstr "payload" ++ (':' :: jstr r.payload))) ++
     ['\x7d'])

theorem newline_not_mem_escapeChar (c : Char) : '\n' ∉ escapeChar c := by
  unfold escapeChar
  split_ifs with h1 h2 h3 h4 h5
  · decide
  · decide
  · decide
  · decide
  · decide
  · simp only [List.mem_singleton]
    exact fun h => h3 h.symm

theorem newline_not_mem_escapeChars (s : List Char) : '\n' ∉ escapeChars s := by
  induction s with
  | nil => simp [escapeChars]
  | cons c rest ih =>
    intro hmem
    rw [escapeChars, List.map_cons, List.flatten_cons] at hmem
    rcases List.mem_append.mp hmem with h | h
    · exact newline_not_mem_escapeChar c h
    · exact ih (by rwa [escapeChars])

theorem newline_not_mem_jstr (s : String) : '\n' ∉ jstr s := by
  intro hmem
  rw [jstr] at hmem
  rcases List.mem_cons.mp hmem with h | h
  · exact absurd h (by decide)
  · rcases List.mem_append.mp h with h | h
    · exact newline_not_mem_escapeChars s.data h
    · exact absurd h (by decide)

theorem nlfree_append {a b : List Char} (ha : '\n' ∉ a) (hb : '\n' ∉ b) :
    '\n' ∉ a ++ b := by
  intro h
  rcases List.mem_append.mp h with h | h
  exacts [ha h, hb h]

theorem nlfree_cons {c : Char} {l : List Char} (hc : ¬ ('\n' = c))
    (hl : '\n' ∉ l) : '\n' ∉ c :: l := by
  intro h
  rcases List.mem_cons.mp h with h | h
  exacts [hc h, hl h]

theorem newline_not_mem_serializeRecord (ts ch p : String) (r : Reason) :
    '\n' ∉ serializeRecord ⟨ts, r, ch, none, p⟩ ∧
    ∀ s : String, '\n' ∉ serializeRecord ⟨ts, r, ch, some (.str s), p⟩ := by
  have hpair : ∀ k v : String, '\n' ∉ jstr k ++ (':' :: jstr v) := fun k v =>
    nlfree_append (newline_not_mem_jstr k)
      (nlfree_cons (by decide) (newline_not_mem_jstr v))
  constructor
  · simp only [serializeRecord]
    refine nlfree_cons (by decide) ?_
    refine nlfree_append (nlfree_append (nlfree_append (nlfree_append
      (nlfree_append (hpair _ _) (nlfree_cons (by decide) (hpair _ _)))
      (nlfree_cons (by decide) (hpair _ _))) (by simp))
      (nlfree_cons (by decide) (hpair _ _))) (by decide)
  · intro s
    simp only [serializeRecord]
    refine nlfree_cons (by decide) ?_
    refine nlfree_append (nlfree_append (nlfree_append (nlfree_append
      (nlfree_append (hpair _ _) (nlfree_cons (by decide) (hpair _ _)))
      (nlfree_cons (by decide) (hpair _ _)))
      (nlfree_cons (by decide) (hpair _ _)))
      (nlfree_cons (by decide) (hpair _ _))) (by decide)

/-- The spec scenario's record: payload
`{"messageId":"abc123","text":"hi"}` dead-lettered with reason
`queue-full` on channel `memories:text:saved`. -/
def sampleRecord : DeadLetterRecord :=
  ⟨"2024-01-01T00:00:00.000Z", .queueFull, "memories:text:saved",
    some (.str "abc123"), "\x7b\"messageId\":\"abc123\",\"text\":\"hi\"\x7d"⟩

set_option maxRecDepth 10000

/-- C8: every dead-letter write appends exactly one record to the sink,
whose reason, channel, and payload fields equal the given arguments (the
payload string unchanged) and whose messageId is the best-effort
extraction from the payload — `some` of the payload's `messageId` member
when the payload parses as a JSON object, `none` otherwise (extraction
is a total function, so it never raises, and the write still appends on
non-JSON payloads).  Concretely, the spec scenario's payload yields
messageId `"abc123"`; its serialized record is a single newline-free
line that parses back to a JSON object whose `reason`, `channel`,
`messageId`, and `payload` members equal the written values, the payload
in particular being the original serialized string; and serialized
records (with absent or string messageId) never contain a newline, so
each write is exactly one NDJSON line. -/
theorem deadletter_write_contract :
    (∀ (sink : List DeadLetterRecord) (ts ch p : String) (r : Reason),
      writeDeadLetterRecord ts ch p r sink =
        sink ++ [⟨ts, r, ch, extractMessageId p, p⟩]) ∧
    extractMessageId "\x7b\"messageId\":\"abc123\",\"text\":\"hi\"\x7d" =
      some (.str "abc123") ∧
    extractMessageId "not valid json" = none ∧
    writeDeadLetterRecord "t0" "ch" "not valid json" .queueFull [] =
      [⟨"t0", .queueFull, "ch", none, "not valid json"⟩] ∧
    jsonParse (String.mk (serializeRecord sampleRecord)) =
      some (.obj
        [("timestamp", .str "2024-01-01T00:00:00.000Z"),
         ("reason", .str "queue-full"),
         ("channel", .str "memories:text:saved"),
         ("messageId", .str "abc123"),
         ("payload", .str "\x7b\"messageId\":\"abc123\",\"text\":\"hi\"\x7d")]) ∧
    '\n' ∉ serializeRecord sampleRecord ∧
    (∀ ts ch p s : String, ∀ r : Reason,
      '\n' ∉ serializeRecord ⟨ts, r, ch, none, p⟩ ∧
      '\n' ∉ serializeRecord ⟨ts, r, ch, some (.str s), p⟩) := by
  refine ⟨fun sink ts ch p r => rfl, by rfl, by rfl, by rfl, by rfl,
    (newline_not_mem_serializeRecord _ _ _ _).2 _,
    fun ts ch p s r => ⟨(newline_not_mem_serializeRecord ts ch p r).1,
      (newline_not_mem_serializeRecord ts ch p r).2 s⟩⟩

end WhatsappMemories
